import Mathlib

/-!
Verification of the `extract_lattes.py` extraction core of the
`tapyu/lattes-articles` repository.

Text is modelled as `List Char` (Python strings are sequences of Unicode code
points).  Each Python helper of `extract_lattes.py` is translated into a Lean
definition of the same name; the regular expressions of the script
(`DOI_RE`, `YEAR_RE`, the author/title/split patterns) are hand-compiled into
character-list scanners with the same matching semantics (leftmost match,
greedy/lazy quantifiers, word boundaries) on the character classes involved.
-/

set_option maxRecDepth 200000
set_option maxHeartbeats 2000000

namespace Lattes

/-- Python `\s` (the regex whitespace class for `str` patterns): ASCII
whitespace plus the Unicode whitespace code points. -/
def pyIsSpace (c : Char) : Bool :=
  let n := c.toNat
  decide (n = 32 ∨ (9 ≤ n ∧ n ≤ 13) ∨ (28 ≤ n ∧ n ≤ 31) ∨ n = 0x85 ∨ n = 0xA0 ∨
    n = 0x1680 ∨ (0x2000 ≤ n ∧ n ≤ 0x200A) ∨ n = 0x2028 ∨ n = 0x2029 ∨
    n = 0x202F ∨ n = 0x205F ∨ n = 0x3000)

/-- Python `str.lower`, on the ASCII and Latin-1 letters (the only cased
characters appearing in the script's string constants). -/
def pyLowerChar (c : Char) : Char :=
  let n := c.toNat
  if 65 ≤ n ∧ n ≤ 90 then Char.ofNat (n + 32)
  else if 0xC0 ≤ n ∧ n ≤ 0xDE ∧ n ≠ 0xD7 then Char.ofNat (n + 32)
  else c

def pyLower (s : List Char) : List Char := s.map pyLowerChar

/-- The letter class `[A-Za-zÀ-ÖØ-öø-ÿ]` of `is_junk_text`. -/
def isLatinLetter (c : Char) : Bool :=
  let n := c.toNat
  decide ((0x41 ≤ n ∧ n ≤ 0x5A) ∨ (0x61 ≤ n ∧ n ≤ 0x7A) ∨
    (0xC0 ≤ n ∧ n ≤ 0xD6) ∨ (0xD8 ≤ n ∧ n ≤ 0xF6) ∨ (0xF8 ≤ n ∧ n ≤ 0xFF))

/-- Python regex word character (`\w`, used for `\b` boundaries), on the
ASCII and Latin letter/digit ranges relevant here. -/
def isWordChar (c : Char) : Bool :=
  let n := c.toNat
  c.isAlphanum || c == '_' ||
    decide (0xC0 ≤ n ∧ n ≤ 0x17F ∧ n ≠ 0xD7 ∧ n ≠ 0xF7)

theorem length_dropWhile_le (p : Char → Bool) :
    ∀ l : List Char, (l.dropWhile p).length ≤ l.length := by
  intro l
  induction l with
  | nil => simp [List.dropWhile]
  | cons c rest ih =>
    by_cases h : p c
    · simp [List.dropWhile, h]
      omega
    · simp [List.dropWhile, h]

/-- Python `str.strip()` (strip whitespace at both ends). -/
def pyStrip (s : List Char) : List Char :=
  ((s.dropWhile pyIsSpace).reverse.dropWhile pyIsSpace).reverse

/-- `re.sub(r"\s+", " ", s)`: collapse every maximal whitespace run to one
space.  (The fuel argument only drives structural termination; one character
is consumed per step, so `s.length` steps always suffice.) -/
def collapseWs (s : List Char) : List Char :=
  go s.length s
where
  go : Nat → List Char → List Char
    | 0, l => l
    | _ + 1, [] => []
    | fuel + 1, c :: rest =>
      if pyIsSpace c then ' ' :: go fuel (rest.dropWhile pyIsSpace)
      else c :: go fuel rest

/-- `clean_whitespace` (extract_lattes.py line 40): strip, then collapse
whitespace runs. -/
def clean_whitespace (s : List Char) : List Char :=
  collapseWs (pyStrip s)

/-- Python `sub in s` / `s.find(sub)` : index of the first occurrence. -/
def findSubFrom (pat : List Char) (i : Nat) : List Char → Option Nat
  | [] => if pat.isEmpty then some i else none
  | l@(_ :: rest) =>
    if pat.isPrefixOf l then some i else findSubFrom pat (i + 1) rest

def findSub (pat s : List Char) : Option Nat := findSubFrom pat 0 s

/-- Python `str.replace(old, new)`: replace every non-overlapping occurrence,
left to right.  (`old` is always non-empty at the call sites.) -/
def replaceAll (s pat repl : List Char) : List Char :=
  go s.length s
where
  go : Nat → List Char → List Char
    | 0, l => l
    | _ + 1, [] => []
    | fuel + 1, l@(c :: rest) =>
      if pat ≠ [] ∧ pat.isPrefixOf l then repl ++ go fuel (l.drop pat.length)
      else c :: go fuel rest

/-- Python `str.strip(" ,.;")`. -/
def isPunctStripChar (c : Char) : Bool :=
  c == ' ' || c == ',' || c == '.' || c == ';'

def stripPunct (s : List Char) : List Char :=
  ((s.dropWhile isPunctStripChar).reverse.dropWhile isPunctStripChar).reverse

/-- Token count of Python `s.split()` (split on whitespace runs, no empty
tokens). -/
def splitWsCount : List Char → Nat
  | [] => 0
  | c :: rest =>
    if pyIsSpace c then splitWsCount (rest : List Char)
    else 1 + splitWsCountIn rest
where
  splitWsCountIn : List Char → Nat
    | [] => 0
    | c :: rest =>
      if pyIsSpace c then splitWsCount rest
      else splitWsCountIn rest

/-- `min` of a Python list of ints (the `cut_points` use is guarded by
non-emptiness). -/
def minOfList : List Nat → Option Nat
  | [] => none
  | x :: rest =>
    match minOfList rest with
    | none => some x
    | some m => some (min x m)

/-! ## DOI_RE: `(10\.\d{4,9}/[^\s,;"'<>]+)` (line 36) -/

/-- The suffix class `[^\s,;"'<>]` of `DOI_RE`. -/
def isDoiSuffixChar (c : Char) : Bool :=
  !(pyIsSpace c || c == ',' || c == ';' || c == '"' || c == '\'' ||
    c == '<' || c == '>')

/-- Attempt of `DOI_RE` at the start of `l`; returns the matched text.  The
digit run after `10.` must have length 4..9 (a longer run leaves a digit, not
`/`, after every backtracking choice of `\d{4,9}`), and `[^\s,;"'<>]+` is
greedy with nothing after it. -/
def doiMatchAt (l : List Char) : Option (List Char) :=
  match l with
  | '1' :: '0' :: '.' :: rest =>
    if 4 ≤ (rest.takeWhile Char.isDigit).length ∧
        (rest.takeWhile Char.isDigit).length ≤ 9 then
      match rest.dropWhile Char.isDigit with
      | '/' :: rest3 =>
        if (rest3.takeWhile isDoiSuffixChar).isEmpty then none
        else some ('1' :: '0' :: '.' ::
          (rest.takeWhile Char.isDigit ++ '/' :: rest3.takeWhile isDoiSuffixChar))
      | _ => none
    else none
  | _ => none

/-- `DOI_RE.search`: leftmost match (start index, matched text = group 1 =
group 0). -/
def doiSearchFrom (i : Nat) : List Char → Option (Nat × List Char)
  | [] => none
  | l@(_ :: rest) =>
    match doiMatchAt l with
    | some m => some (i, m)
    | none => doiSearchFrom (i + 1) rest

def doiSearch (s : List Char) : Option (Nat × List Char) := doiSearchFrom 0 s

/-! ## YEAR_RE: `\b(19|20)\d{2}\b` (line 37) -/

/-- `\b` before the match: start of string, or previous character not a word
character (the first matched character `1`/`2` is a word character). -/
def boundaryBefore : Option Char → Bool
  | none => true
  | some c => !isWordChar c

/-- `\b` after the match: end of string, or next character not a word
character. -/
def boundaryAfter : List Char → Bool
  | [] => true
  | c :: _ => !isWordChar c

/-- `YEAR_RE.finditer`: every non-overlapping match, left to right, as
(start index, matched text).  After a match the scan resumes at its end. -/
def yearFindFrom : Nat → Option Char → Nat → List Char → List (Nat × List Char)
  | 0, _, _, _ => []
  | fuel + 1, prev, i, a :: b :: c :: d :: rest =>
    if boundaryBefore prev && ((a == '1' && b == '9') || (a == '2' && b == '0')) &&
        c.isDigit && d.isDigit && boundaryAfter rest then
      (i, [a, b, c, d]) :: yearFindFrom fuel (some d) (i + 4) rest
    else
      yearFindFrom fuel (some a) (i + 1) (b :: c :: d :: rest)
  | _ + 1, _, _, _ => []

def yearFinditer (s : List Char) : List (Nat × List Char) :=
  yearFindFrom s.length none 0 s

/-- `YEAR_RE.search(s)` succeeds iff there is some match. -/
def yearHasMatch (s : List Char) : Bool := !(yearFinditer s).isEmpty

/-! ## `re.search(r"^(.*?)\s\.\s", remainder)` (line 167)

`(.*?)` is lazy and cannot cross a newline (no DOTALL), so the match, if any,
is at the least index `j` such that characters `j, j+1, j+2` are
whitespace, `.`, whitespace, with no `\n` among characters `0..j-1`.  The
result is `j` (end of group 1; `end()` of the whole match is `j + 3`). -/
def authorScan : Nat → Nat → List Char → Option Nat
  | 0, _, _ => none
  | fuel + 1, j, a :: b :: c :: rest =>
    if pyIsSpace a && b == '.' && pyIsSpace c then some j
    else if a == '\n' then none
    else authorScan fuel (j + 1) (b :: c :: rest)
  | _ + 1, _, _ => none

def authorSearch (s : List Char) : Option Nat := authorScan s.length 0 s

/-! ## `re.sub(r'<[^>]+>', ' ', p)` (line 271) -/

/-- Replace every `<[^>]+>` occurrence with a single space; a `<` with no
following `>` (or an immediate `>`) does not match and is kept. -/
def tagStrip (s : List Char) : List Char :=
  go s.length s
where
  go : Nat → List Char → List Char
    | 0, l => l
    | _ + 1, [] => []
    | fuel + 1, '<' :: rest =>
      let run := rest.takeWhile (fun c => c ≠ '>')
      if run.isEmpty then '<' :: go fuel rest
      else
        match rest.dropWhile (fun c => c ≠ '>') with
        | '>' :: rest2 => ' ' :: go fuel rest2
        | _ => '<' :: go fuel rest
    | fuel + 1, c :: rest => c :: go fuel rest

/-! ## `re.split(r"<li[^>]*>|<br\s*/?>|\n\s*\n", block, flags=re.I)` (line 269) -/

/-- Index (from the start of `run`) of the last `'\n'` in `run`, if any;
used for the greedy `\s*` of `\n\s*\n`. -/
def lastNewlineIdx (run : List Char) : Option Nat :=
  go run 0 none
where
  go : List Char → Nat → Option Nat → Option Nat
    | [], _, acc => acc
    | c :: rest, i, acc => go rest (i + 1) (if c == '\n' then some i else acc)

/-- Match length of the split pattern at the start of `l` (alternatives tried
in order: `<li[^>]*>`, `<br\s*/?>`, `\n\s*\n`; case-insensitive). -/
def fbMatchAt (l : List Char) : Option Nat :=
  match liAt l with
  | some n => some n
  | none =>
    match brAt l with
    | some n => some n
    | none => blankAt l
where
  liAt : List Char → Option Nat
    | '<' :: c1 :: c2 :: rest =>
      if pyLowerChar c1 == 'l' && pyLowerChar c2 == 'i' then
        let run := rest.takeWhile (fun c => c ≠ '>')
        match rest.dropWhile (fun c => c ≠ '>') with
        | '>' :: _ => some (3 + run.length + 1)
        | _ => none
      else none
    | _ => none
  brAt : List Char → Option Nat
    | '<' :: c1 :: c2 :: rest =>
      if pyLowerChar c1 == 'b' && pyLowerChar c2 == 'r' then
        let ws := rest.takeWhile pyIsSpace
        match rest.dropWhile pyIsSpace with
        | '/' :: '>' :: _ => some (3 + ws.length + 2)
        | '>' :: _ => some (3 + ws.length + 1)
        | _ => none
      else none
    | _ => none
  blankAt : List Char → Option Nat
    | '\n' :: rest =>
      let run := rest.takeWhile pyIsSpace
      match lastNewlineIdx run with
      | some k => some (1 + k + 1)
      | none => none
    | _ => none

/-- `re.split` with the pattern above: segments between consecutive matches
(both the possibly-empty head and tail segments are kept). -/
def fbSplit (s : List Char) : List (List Char) :=
  go s.length [] s
where
  go : Nat → List Char → List Char → List (List Char)
    | 0, acc, l => [acc.reverse ++ l]
    | _ + 1, acc, [] => [acc.reverse]
    | fuel + 1, acc, l@(c :: rest) =>
      match fbMatchAt l with
      | some len => acc.reverse :: go fuel [] (l.drop len)
      | none => go fuel (c :: acc) rest

/-! ## `split_numbered_block` (lines 66-81) -/

/-- `re.search(r'\b1\.|\b1\)', text)` succeeds somewhere. -/
def hasNumberedMarker (s : List Char) : Bool :=
  go none s
where
  go : Option Char → List Char → Bool
    | prev, c :: rest =>
      (boundaryBefore prev && c == '1' &&
        (match rest with
         | c2 :: _ => c2 == '.' || c2 == ')'
         | [] => false)) ||
        go (some c) rest
    | _, [] => false

/-- Lookahead `(?:^|\s)\d{1,3}[\.)]\s` starting exactly at position measured
by `atStart`/`prev`: either at index 0 with `\d{1,3}[\.)]\s` there, or the
current character is whitespace followed by `\d{1,3}[\.)]\s`. -/
def numberedBodyAt (l : List Char) : Bool :=
  let ds := l.takeWhile Char.isDigit
  if 1 ≤ ds.length ∧ ds.length ≤ 3 then
    match l.dropWhile Char.isDigit with
    | c :: c2 :: _ => (c == '.' || c == ')') && pyIsSpace c2
    | _ => false
  else false

/-- Positions of the zero-width split pattern
`(?=(?:^|\s)\d{1,3}[\.)]\s)` in `s`. -/
def numberedSplitPoints (s : List Char) : List Nat :=
  go 0 s
where
  go (i : Nat) : List Char → List Nat
    | [] => []
    | l@(c :: rest) =>
      let hit := (i == 0 && numberedBodyAt l) || (pyIsSpace c && numberedBodyAt rest)
      if hit then i :: go (i + 1) rest else go (i + 1) rest

/-- Cut `s` at the given ascending positions (`re.split` on a zero-width
pattern). -/
def cutAt (s : List Char) (ps : List Nat) : List (List Char) :=
  go s 0 ps
where
  go (s : List Char) (base : Nat) : List Nat → List (List Char)
    | [] => [s]
    | p :: rest => s.take (p - base) :: go (s.drop (p - base)) p rest

/-- `re.sub(r'^[\d]{1,3}[\.)]\s*', '', p)`: drop a leading 1-3 digit run
followed by `.` or `)` and any following whitespace. -/
def stripLeadingNumbering (p : List Char) : List Char :=
  let ds := p.takeWhile Char.isDigit
  if 1 ≤ ds.length ∧ ds.length ≤ 3 then
    match p.dropWhile Char.isDigit with
    | c :: rest =>
      if c == '.' || c == ')' then rest.dropWhile pyIsSpace else p
    | [] => p
  else p

/-! ## `is_junk_text` (lines 44-63) -/

/-- The `junk_keywords` denylist (line 48). -/
def junk_keywords : List (List Char) :=
  ["ordenar por".data, "var ordenacao".data, "#artigos-completos".data,
   "span[data-tipo-ordenacao".data, "pagina gerada pelo sistema".data,
   "function(".data, "return (v1".data, "numerico_crescente".data,
   "numerico:".data]

/-- `is_junk_text` (line 44).  The final ratio test
`letters / max(1, len(s)) < 0.3` is a float comparison in Python; for the
string lengths reachable here it coincides with the exact rational
comparison `letters * 10 < 3 * max(1, len(s))` used below. -/
def is_junk_text (s : List Char) : Bool :=
  if s.isEmpty then true
  else if junk_keywords.any (fun k => (findSub k (pyLower s)).isSome) then true
  else if s.length < 10 then true
  else if (s.filter isLatinLetter).length * 10 < 3 * (max 1 s.length) then true
  else false

/-! ## `split_numbered_block` (lines 66-81) -/

def split_numbered_block (text : List Char) : List (List Char) :=
  if !hasNumberedMarker text then [text]
  else
    let parts := cutAt text (numberedSplitPoints text)
    parts.flatMap (fun part =>
      let p := pyStrip part
      if p.isEmpty then []
      else
        let p := stripLeadingNumbering p
        if !p.isEmpty && !is_junk_text p then [p] else [])

/-! ## `parse_entry_text` (lines 158-224) -/

/-- The output record (`PublicationRecord` of the spec; the dict built at
lines 217-224). -/
structure Record where
  title : String
  authors : String
  place : String
  year : String
  doi : Option String
  «class» : String
deriving Repr, DecidableEq

/-- Lines 186-196: year extraction.  Returns (year text, offset of the match
in `remainder` when the match came from `remainder`). -/
def yearStep (remainder t : List Char) : List Char × Option Nat :=
  match (yearFinditer remainder).getLast? with
  | some (pos, ystr) => (ystr, some pos)
  | none =>
    match (yearFinditer t).getLast? with
    | some (_, ystr) => (ystr, none)
    | none => ([], none)

/-- Lines 197-202: `place = remainder[:year_pos]` (or the whole remainder),
then `strip(" ,.;")`. -/
def placeInitial (remainder : List Char) (year_pos : Option Nat) : List Char :=
  stripPunct
    (match year_pos with
     | some p => remainder.take p
     | none => remainder)

/-- Lines 203-204 (and 207-208): drop a leading case-insensitive `in:`. -/
def placeDropIn (pl : List Char) : List Char :=
  if "in:".data.isPrefixOf (pyLower pl) then pyStrip (pl.drop 3) else pl

/-- Lines 205-208: when the place came out empty but the remainder was not,
redo the strip/`in:`-drop on the whole remainder. -/
def placeRetry (remainder pl : List Char) : List Char :=
  if pl.isEmpty && !remainder.isEmpty then placeDropIn (stripPunct remainder)
  else pl

/-- Lines 209-215: truncate at an `org.crossref` artifact and re-strip. -/
def placeCrossref (pl : List Char) : List Char :=
  match findSub "org.crossref".data (pyLower pl) with
  | some idx => stripPunct (pl.take idx)
  | none => pl

/-- Lines 197-215: place extraction from `remainder` and the year offset. -/
def placeStep (remainder : List Char) (year_pos : Option Nat) : List Char :=
  placeCrossref (placeRetry remainder (placeDropIn (placeInitial remainder year_pos)))

/-- Lines 172-183: title extraction from the remainder. -/
def titleStep (remainder : List Char) : List Char × List Char :=
  if remainder.isEmpty then ([], remainder)
  else
    match findSub ". ".data remainder with
    | some idx => (pyStrip (remainder.take idx), remainder.drop (idx + 2))
    | none =>
      match findSub ".".data remainder with
      | some idx => (pyStrip (remainder.take idx), pyStrip (remainder.drop (idx + 1)))
      | none => (remainder, [])

/-- The field computation of `parse_entry_text` (everything except attaching
the section title): title, authors, place, year, doi. -/
structure Fields where
  title : List Char
  authors : List Char
  place : List Char
  year : List Char
  doi : Option (List Char)

def parse_core (text : List Char) : Fields :=
  let t0 := clean_whitespace text
  let doiM := doiSearch t0
  let t := match doiM with
    | some (_, m) => replaceAll t0 m [' ']
    | none => t0
  let aM := authorSearch t
  let authors := match aM with
    | some j => clean_whitespace (t.take j)
    | none => []
  let remainder0 := match aM with
    | some j => pyStrip (t.drop (j + 3))
    | none => t
  let title := (titleStep remainder0).1
  let remainder := pyStrip (titleStep remainder0).2
  let yp := yearStep remainder t
  let place := placeStep remainder yp.2
  { title := clean_whitespace title
    authors := clean_whitespace authors
    place := clean_whitespace place
    year := yp.1
    doi := doiM.map (·.2) }

def parse_entry_text (text : List Char) (section_title : String) : Record :=
  let f := parse_core text
  { title := f.title.asString
    authors := f.authors.asString
    place := f.place.asString
    year := f.year.asString
    doi := f.doi.map List.asString
    «class» := section_title }

/-! ## The document tree

The script hands the input string to BeautifulSoup (an external collaborator,
not part of this repository).  Modelled from the spec: §9 prescribes a
tagged-union node type `{Element(tag, classes, children), Text(content)}`,
and §7 a lenient parser that never fails on malformed markup. -/

inductive Node where
  | element (tag : String) (classes : List String) (attrs : List (String × String))
      (children : List Node)
  | text (s : String)
deriving Repr

def Node.childrenOf : Node → List Node
  | .element _ _ _ ch => ch
  | .text _ => []

def Node.attrsOf : Node → List (String × String)
  | .element _ _ attrs _ => attrs
  | .text _ => []

/-- Concatenated list of the text-node contents below a node (its
`.strings`), in document order. -/
def nodeStrings : Node → List String
  | .text s => [s]
  | .element _ _ _ ch => nodesStrings ch
where
  nodesStrings : List Node → List String
    | [] => []
    | n :: rest => nodeStrings n ++ nodesStrings rest

/-- bs4 `get_text(" ", strip=True)`: strip each string, drop the empty ones,
join with a single space. -/
def getTextSpaceStrip (n : Node) : String :=
  String.intercalate " "
    (((nodeStrings n).map (fun s => (pyStrip s.data).asString)).filter (· ≠ ""))

/-- First element (pre-order) satisfying `p`, among a sibling list and all of
its descendants. -/
def findElemIn (p : Node → Bool) : List Node → Option Node
  | [] => none
  | n :: rest =>
    match findElemAt p n with
    | some r => some r
    | none => findElemIn p rest
where
  findElemAt (p : Node → Bool) : Node → Option Node
    | .text _ => none
    | n@(.element _ _ _ ch) => if p n then some n else findElemIn p ch

/-- `fragment.select(".informacao-artigo")` + `decompose()` (lines 153-156):
remove every subtree whose root carries the `informacao-artigo` class
(`none` when the node itself is removed). -/
def stripInfo : Node → Option Node
  | .text s => some (.text s)
  | .element t cls attrs ch =>
    if "informacao-artigo" ∈ cls then none
    else some (.element t cls attrs (stripInfoList ch))
where
  stripInfoList : List Node → List Node
    | [] => []
    | n :: rest =>
      match stripInfo n with
      | some n' => n' :: stripInfoList rest
      | none => stripInfoList rest

/-- `extract_entry_text` (lines 152-156): drop `informacao-artigo` descendants,
then `get_text(" ", strip=True)`.  (The `str`/re-parse round trip of line 153
is the identity on the modelled tree.) -/
def extract_entry_text (span : Node) : String :=
  match stripInfo span with
  | some n => getTextSpaceStrip n
  | none => ""

/-- Lines 87-92 of `extract_doi_from_node`: the DOI taken from the href of
the first `a.icone-doi` descendant link, when that link exists, has a truthy
href, and the href contains a DOI match. -/
def hrefDoi (node : Node) : Option (List Char) :=
  match findElemIn
      (fun n => match n with
        | .element t cls _ _ => t == "a" && cls.contains "icone-doi"
        | .text _ => false) node.childrenOf with
  | some l =>
    match l.attrsOf.lookup "href" with
    | some href => if href ≠ "" then (doiSearch href.data).map (·.2) else none
    | none => none
  | none => none

/-- `extract_doi_from_node` (lines 84-97). -/
def extract_doi_from_node (node : Node) (fallback_text : String) : Option String :=
  match hrefDoi node with
  | some m => some m.asString
  | none =>
    (doiSearch
        (if fallback_text ≠ "" then fallback_text
         else getTextSpaceStrip node).data).map (fun q => q.2.asString)

/-! ## Section locator (lines 100-123)

bs4 walks `parent` / `next_sibling` pointers; on the functional tree the same
walks are done through an explicit ancestor chain: the search below returns,
for the first (document-order) node satisfying `p`, the list
`(node, following siblings) :: (parent, parent's following siblings) :: …`. -/

abbrev Chain := List (Node × List Node)

/-- Pre-order search over a sibling list (descendants of the node whose
children these are), carrying the ancestor chain. -/
def searchNode (p : Node → Bool) (anc : Chain) : List Node → Option Chain
  | [] => none
  | n :: rest =>
    match searchNodeAt p anc n rest with
    | some r => some r
    | none => searchNode p anc rest
where
  searchNodeAt (p : Node → Bool) (anc : Chain) (n : Node) (sibs : List Node) :
      Option Chain :=
    if p n then some ((n, sibs) :: anc)
    else
      match n with
      | .element _ _ _ ch => searchNode p ((n, sibs) :: anc) ch
      | .text _ => none

def TARGET_CLASSES : List String :=
  ["Artigos completos publicados em periódicos",
   "Capítulos de livros publicados",
   "Trabalhos completos publicados em anais de congressos"]

def SECTION_ANCHORS : List (String × String) :=
  [("Artigos completos publicados em periódicos", "ArtigosCompletos"),
   ("Capítulos de livros publicados", "LivrosCapitulos"),
   ("Trabalhos completos publicados em anais de congressos",
    "TrabalhosPublicadosAnaisCongresso")]

def isDivCita : Node → Bool
  | .element t cls _ _ => t == "div" && cls.contains "cita-artigos"
  | .text _ => false

def isDiv : Node → Bool
  | .element t _ _ _ => t == "div"
  | .text _ => false

/-- `find_section_header` (lines 100-123), returning the located header's
following siblings (all the later walk needs).  `none` covers both "no header"
and the text-scan branch ending on a parentless/undiv'd node (the caller
treats both as zero entries).  The anchor branch falls through to the text
scan when no `div.cita-artigos` ancestor is found (lines 105-113 return only
`if header:`). -/
def find_section_header (soup : Node) (section_title : String) : Option (List Node) :=
  let anchorBranch : Option (List Node) :=
    match SECTION_ANCHORS.lookup section_title with
    | none => none
    | some anchor_name =>
      match searchNode
          (fun n => match n with
            | .element t _ attrs _ => t == "a" && attrs.lookup "name" == some anchor_name
            | .text _ => false) [] soup.childrenOf with
      | none => none
      | some chain =>
        match chain.find? (fun q => isDivCita q.1) with
        | some q => some q.2
        | none => none
  match anchorBranch with
  | some sibs => some sibs
  | none =>
    match searchNode
        (fun n => match n with
          | .text s =>
            !(pyStrip s.data).isEmpty &&
              (findSub (pyLower section_title.data) (pyLower s.data)).isSome
          | .element _ _ _ _ => false) [] soup.childrenOf with
    | none => none
    | some chain =>
      match (chain.drop 1).find? (fun q => isDiv q.1) with
      | some q => some q.2
      | none => none

/-- The sibling walk of `collect_section_entries` (lines 130-149). -/
def collectLoop : List Node → List (String × Option String)
  | [] => []
  | .text _ :: rest => collectLoop rest
  | .element tag cls _ ch :: rest =>
    if tag == "div" &&
        (cls.contains "cita-artigos" || cls.contains "inst_back" ||
         cls.contains "title-wrapper") then []
    else if tag == "script" || tag == "style" then collectLoop rest
    else
      match findElemIn
          (fun m => match m with
            | .element t c _ _ => t == "span" && c.contains "transform"
            | .text _ => false) ch with
      | none => collectLoop rest
      | some span =>
        if extract_entry_text span ≠ "" &&
            !is_junk_text (extract_entry_text span).data then
          (extract_entry_text span,
            extract_doi_from_node span (extract_entry_text span)) :: collectLoop rest
        else collectLoop rest

/-- `collect_section_entries` (lines 126-149). -/
def collect_section_entries (soup : Node) (section_title : String) :
    List (String × Option String) :=
  match find_section_header soup section_title with
  | none => []
  | some sibs => collectLoop sibs

/-! ## HTML parsing

Modelled from the spec: the script's `BeautifulSoup(html, "html.parser")`
call is an external collaborator; §6/§7 require a lenient parser of the raw
string into the tagged-union tree ("malformed/partial HTML must not crash
parsing"), which the tokenizer/tree-builder below provides as a total
function. -/

inductive RawTok where
  | text (s : List Char)
  | tag (content : List Char)

/-- Split the input into text runs and `<...>` tag contents; an unterminated
`<` is kept as literal text. -/
def rawTokens (s : List Char) : List RawTok :=
  go s.length s
where
  go : Nat → List Char → List RawTok
    | 0, l => if l.isEmpty then [] else [.text l]
    | _ + 1, [] => []
    | fuel + 1, '<' :: rest =>
      match rest.dropWhile (fun c => c ≠ '>') with
      | _ :: rest2 => .tag (rest.takeWhile (fun c => c ≠ '>')) :: go fuel rest2
      | [] => [.text ('<' :: rest)]
    | fuel + 1, l@(_ :: _) =>
      .text (l.takeWhile (fun d => d ≠ '<')) :: go fuel (l.dropWhile (fun d => d ≠ '<'))

/-- Attribute list of a start tag: `name`, `name=value`, `name="value"`,
`name='value'`, names lowercased. -/
def parseAttrs : Nat → List Char → List (List Char × List Char)
  | 0, _ => []
  | fuel + 1, cs =>
    let cs := cs.dropWhile (fun c => pyIsSpace c || c == '/')
    match cs with
    | [] => []
    | _ =>
      let name := cs.takeWhile (fun c => !(pyIsSpace c || c == '=' || c == '/'))
      let rest := cs.dropWhile (fun c => !(pyIsSpace c || c == '=' || c == '/'))
      if name.isEmpty then parseAttrs fuel (cs.drop 1)
      else
        match rest.dropWhile pyIsSpace with
        | '=' :: r =>
          match r.dropWhile pyIsSpace with
          | '"' :: r2 =>
            (pyLower name, r2.takeWhile (fun c => c ≠ '"')) ::
              parseAttrs fuel ((r2.dropWhile (fun c => c ≠ '"')).drop 1)
          | '\'' :: r2 =>
            (pyLower name, r2.takeWhile (fun c => c ≠ '\'')) ::
              parseAttrs fuel ((r2.dropWhile (fun c => c ≠ '\'')).drop 1)
          | r2 =>
            (pyLower name, r2.takeWhile (fun c => !pyIsSpace c)) ::
              parseAttrs fuel (r2.dropWhile (fun c => !pyIsSpace c))
        | rest2 => (pyLower name, []) :: parseAttrs fuel rest2

/-- Whitespace-separated tokens (used for multi-valued `class` attributes). -/
def splitWsTokens (s : List Char) : List (List Char) :=
  go s.length s
where
  go : Nat → List Char → List (List Char)
    | 0, _ => []
    | _ + 1, [] => []
    | fuel + 1, c :: rest =>
      if pyIsSpace c then go fuel rest
      else
        (c :: rest.takeWhile (fun d => !pyIsSpace d)) ::
          go fuel (rest.dropWhile (fun d => !pyIsSpace d))

def classesOfAttrs (attrs : List (List Char × List Char)) : List String :=
  match attrs.lookup "class".data with
  | some v => (splitWsTokens v).map List.asString
  | none => []

/-- HTML void elements (start tags with no content). -/
def voidTags : List String :=
  ["area", "base", "br", "col", "embed", "hr", "img", "input", "link", "meta",
   "source", "track", "wbr"]

structure Frame where
  tag : String
  classes : List String
  attrs : List (String × String)
  rev : List Node

/-- Builder state: open-element stack (innermost first) and the reversed
top-level node list. -/
abbrev BuildSt := List Frame × List Node

def addNode (st : BuildSt) (n : Node) : BuildSt :=
  match st with
  | ([], root) => ([], n :: root)
  | (f :: fs, root) => ({ f with rev := n :: f.rev } :: fs, root)

def closeFrame (f : Frame) : Node :=
  .element f.tag f.classes f.attrs f.rev.reverse

def closeTop (st : BuildSt) : BuildSt :=
  match st with
  | ([], root) => ([], root)
  | (f :: fs, root) => addNode (fs, root) (closeFrame f)

/-- Close frames until (and including) the innermost one with the given tag;
leaves the state unchanged when no frame matches (a stray end tag is
ignored). -/
def closeUntil (name : String) (st : BuildSt) : BuildSt :=
  if (st.1.any (fun f => f.tag == name)) then go st.1.length st else st
where
  go : Nat → BuildSt → BuildSt
    | 0, st => st
    | _ + 1, ([], root) => ([], root)
    | fuel + 1, (f :: fs, root) =>
      let st' := closeTop (f :: fs, root)
      if f.tag == name then st' else go fuel st'

def applyTok (st : BuildSt) : RawTok → BuildSt
  | .text s => if s.isEmpty then st else addNode st (.text s.asString)
  | .tag content =>
    match content with
    | [] => addNode st (.text "<>")
    | '/' :: rest =>
      closeUntil ((pyLower (rest.takeWhile (fun c => !pyIsSpace c))).asString) st
    | '!' :: _ => st
    | '?' :: _ => st
    | _ =>
      let nameCs := content.takeWhile (fun c => !(pyIsSpace c || c == '/'))
      if nameCs.isEmpty then addNode st (.text ('<' :: content ++ ['>']).asString)
      else
        let name := (pyLower nameCs).asString
        let restCs := content.dropWhile (fun c => !(pyIsSpace c || c == '/'))
        let attrs := parseAttrs restCs.length restCs
        let attrsS := attrs.map (fun q => (q.1.asString, q.2.asString))
        let classes := classesOfAttrs attrs
        let selfClose := content.getLast? == some '/'
        if selfClose || voidTags.contains name then
          addNode st (.element name classes attrsS [])
        else
          ({ tag := name, classes := classes, attrs := attrsS, rev := [] } :: st.1, st.2)

def closeAll : Nat → BuildSt → BuildSt
  | 0, st => st
  | fuel + 1, st =>
    match st with
    | ([], root) => ([], root)
    | _ => closeAll fuel (closeTop st)

/-- `BeautifulSoup(html, "html.parser")` as a tree (the `[document]` root). -/
def parseHtml (html : String) : Node :=
  let toks := rawTokens html.data
  let st := toks.foldl applyTok ([], [])
  let st := closeAll st.1.length st
  .element "[document]" [] [] st.2.reverse

/-! ## Orchestrator (lines 226-287) -/

/-- Python truthiness of an optional string: `None` and `""` are falsy. -/
def optStrTruthy : Option String → Bool
  | some s => s ≠ ""
  | none => false

/-- Lines 233-234: `if explicit_doi and not record.get("doi"): record["doi"] =
explicit_doi` (Python truthiness: `None` and `""` are falsy). -/
def attach_explicit_doi (record : Record) (explicit_doi : Option String) : Record :=
  if optStrTruthy explicit_doi && !optStrTruthy record.doi then
    { record with doi := explicit_doi }
  else record

/-- The structured (stage 1) pipeline: the per-category loop of
`extract_with_bs4` (lines 229-235). -/
def primaryRecords (html : String) : List Record :=
  TARGET_CLASSES.flatMap (fun cls =>
    (collect_section_entries (parseHtml html) cls).map (fun e =>
      attach_explicit_doi (parse_entry_text e.1.data cls) e.2))

/-! ## `extract_with_fallback` (lines 240-282) -/

/-- The three structural stop markers (lines 249-253), as literal lowercase
markup substrings. -/
def stop_markers : List (List Char) :=
  ["<div class=\"cita-artigos\"".data, "<div class=\"inst_back\"".data,
   "<div class=\"title-wrapper\"".data]

/-- Insertion sort by first component (the found offsets are pairwise
distinct, so this agrees with Python's tuple sort of `occurrences`). -/
def insertByIdx (x : Nat × String) : List (Nat × String) → List (Nat × String)
  | [] => [x]
  | y :: rest => if x.1 ≤ y.1 then x :: y :: rest else y :: insertByIdx x rest

def sortByIdx : List (Nat × String) → List (Nat × String)
  | [] => []
  | x :: rest => insertByIdx x (sortByIdx rest)

/-- Lines 242-248: the located category labels, sorted by offset. -/
def occurrencesOf (html : List Char) : List (Nat × String) :=
  let lower := pyLower html
  sortByIdx (TARGET_CLASSES.filterMap (fun cls =>
    (findSub (pyLower cls.data) lower).map (fun idx => (idx, cls))))

/-- Lines 269-281: split one category block into fragments and parse the
surviving ones. -/
def fallbackBlockRecords (block : List Char) (cls : String) : List Record :=
  (fbSplit block).flatMap (fun p =>
    if (clean_whitespace (tagStrip p)).isEmpty then []
    else if is_junk_text (clean_whitespace (tagStrip p)) then []
    else
      (split_numbered_block (clean_whitespace (tagStrip p))).flatMap (fun sp =>
        if yearHasMatch sp || (doiSearch sp).isSome || 8 < splitWsCount sp then
          [parse_entry_text sp cls]
        else []))

def extract_with_fallback (html : String) : List Record :=
  let occ := occurrencesOf html.data
  occ.flatMap (fun oc =>
    let start := oc.1 + oc.2.data.length
    let next_pos := (occ.filter (fun q => oc.1 < q.1)).head?.map (·.1)
    let block :=
      match next_pos with
      | some np => (html.data.take np).drop start
      | none => html.data.drop start
    let block_lower := pyLower block
    let cut_points := stop_markers.filterMap (fun m => findSub m block_lower)
    let block :=
      match minOfList cut_points with
      | some c => block.take c
      | none => block
    fallbackBlockRecords block oc.2)

/-- `extract_with_bs4` (lines 226-238). -/
def extract_with_bs4 (html : String) : List Record :=
  if !(primaryRecords html).isEmpty then primaryRecords html
  else extract_with_fallback html

/-- `extract` (lines 284-287); `HAS_BS4` is true in the deployed
configuration (bs4 importable), so the structured pipeline runs first. -/
def extract (html : String) : List Record :=
  extract_with_bs4 html

/-! ## Spec-side predicates

These two definitions follow the wording of the specification (not the
code); the claims compare the code's behaviour against them. -/

/-- A character excluded from a DOI suffix by the spec's wording:
"whitespace, commas, semicolons, quotes, and angle brackets". -/
def specDoiExcluded (c : Char) : Bool :=
  pyIsSpace c || c == ',' || c == ';' || c == '"' || c == '\'' ||
    c == '<' || c == '>'

/-- The spec's DOI pattern, as an anchored whole-string match: `10.` followed
by 4-9 digits, `/`, then one or more characters none of which is excluded. -/
def doiSpecMatch (s : String) : Bool :=
  match s.data with
  | '1' :: '0' :: '.' :: rest =>
    decide (4 ≤ (rest.takeWhile Char.isDigit).length ∧
        (rest.takeWhile Char.isDigit).length ≤ 9) &&
      (match rest.dropWhile Char.isDigit with
       | '/' :: sfx => !sfx.isEmpty && sfx.all (fun c => !specDoiExcluded c)
       | _ => false)
  | _ => false

/-- Position of a category label in the fixed `TARGET_CLASSES` declaration
order. -/
def rank (c : String) : Nat := TARGET_CLASSES.findIdx (fun x => x == c)

/-! ## Lemmas: every DOI the code produces matches the spec's DOI pattern -/

theorem digits_split (sfx : List Char) :
    ∀ ds : List Char, (∀ c ∈ ds, Char.isDigit c = true) →
      (ds ++ '/' :: sfx).takeWhile Char.isDigit = ds ∧
      (ds ++ '/' :: sfx).dropWhile Char.isDigit = '/' :: sfx := by
  intro ds h
  induction ds with
  | nil => simp [List.takeWhile, List.dropWhile]
  | cons c rest ih =>
    have hc : Char.isDigit c = true := h c (by simp)
    have := ih (fun x hx => h x (by simp [hx]))
    simp [List.takeWhile, List.dropWhile, hc, this.1, this.2]

theorem isDoiSuffixChar_eq (c : Char) :
    isDoiSuffixChar c = !specDoiExcluded c := rfl

theorem doiMatchAt_spec (l m : List Char) (h : doiMatchAt l = some m) :
    doiSpecMatch m.asString = true := by
  unfold doiMatchAt at h
  split at h
  · split at h
    · split at h
      · split at h
        · exact absurd h (by simp)
        · rename_i rest hlen x rest3 heq hne
          have hm : m = '1' :: '0' :: '.' ::
              (rest.takeWhile Char.isDigit ++ '/' :: rest3.takeWhile isDoiSuffixChar) :=
            (Option.some_inj.mp h).symm
          have hds : ∀ c ∈ rest.takeWhile Char.isDigit, Char.isDigit c = true :=
            fun c hc => List.mem_takeWhile_imp hc
          have hsplit := digits_split (rest3.takeWhile isDoiSuffixChar)
            (rest.takeWhile Char.isDigit) hds
          have hdata : m.asString.data = m := rfl
          unfold doiSpecMatch
          rw [hdata, hm]
          simp only [hsplit.1, hsplit.2]
          refine (Bool.and_eq_true _ _).mpr ⟨by simpa using hlen, ?_⟩
          refine (Bool.and_eq_true _ _).mpr ⟨by simpa using hne, ?_⟩
          rw [List.all_eq_true]
          intro c hc
          rw [← isDoiSuffixChar_eq]
          exact List.mem_takeWhile_imp hc
      · exact absurd h (by simp)
    · exact absurd h (by simp)
  · exact absurd h (by simp)

theorem doiSearchFrom_spec :
    ∀ (l : List Char) (i j : Nat) (m : List Char),
      doiSearchFrom i l = some (j, m) → doiSpecMatch m.asString = true := by
  intro l
  induction l with
  | nil => intro i j m h; exact absurd h (by simp [doiSearchFrom])
  | cons c rest ih =>
    intro i j m h
    unfold doiSearchFrom at h
    split at h
    case h_1 m' hm =>
      cases h
      exact doiMatchAt_spec _ _ hm
    case h_2 => exact ih _ _ _ h

theorem doiSearch_spec (s : List Char) (j : Nat) (m : List Char)
    (h : doiSearch s = some (j, m)) : doiSpecMatch m.asString = true :=
  doiSearchFrom_spec s 0 j m h

/-! ## Lemmas about `parse_entry_text` and the explicit-DOI attachment -/

theorem parse_entry_text_class (t : List Char) (c : String) :
    (parse_entry_text t c).«class» = c := rfl

theorem parse_entry_text_doi (t : List Char) (c : String) :
    (parse_entry_text t c).doi =
      ((doiSearch (clean_whitespace t)).map (·.2)).map List.asString := rfl

theorem parse_doi_spec (t : List Char) (c : String) (d : String)
    (h : (parse_entry_text t c).doi = some d) : doiSpecMatch d = true := by
  rw [parse_entry_text_doi] at h
  cases hq : doiSearch (clean_whitespace t) with
  | none => simp [hq] at h
  | some q =>
    rw [hq] at h
    simp at h
    subst h
    exact doiSearch_spec _ q.1 q.2 hq

theorem doiSpecMatch_ne_empty (d : String) (h : doiSpecMatch d = true) :
    d ≠ "" := by
  intro he
  rw [he] at h
  exact absurd h (by decide)

theorem attach_explicit_doi_class (r : Record) (x : Option String) :
    (attach_explicit_doi r x).«class» = r.«class» := by
  unfold attach_explicit_doi
  split <;> rfl

theorem attach_explicit_doi_doi (r : Record) (x : Option String) (d : String)
    (h : (attach_explicit_doi r x).doi = some d) :
    r.doi = some d ∨ x = some d := by
  unfold attach_explicit_doi at h
  split at h
  · exact Or.inr h
  · exact Or.inl h

theorem hrefDoi_spec (n : Node) (m : List Char) (h : hrefDoi n = some m) :
    doiSpecMatch m.asString = true := by
  unfold hrefDoi at h
  cases hfe : findElemIn
      (fun n => match n with
        | Node.element t cls _ _ => t == "a" && cls.contains "icone-doi"
        | Node.text _ => false) n.childrenOf with
  | none => simp only [hfe] at h; exact absurd h (by simp)
  | some l =>
    simp only [hfe] at h
    cases hlk : l.attrsOf.lookup "href" with
    | none => simp only [hlk] at h; exact absurd h (by simp)
    | some href =>
      simp only [hlk] at h
      by_cases hne : href = ""
      · rw [if_neg (fun hc => hc hne)] at h
        simp at h
      · rw [if_pos hne] at h
        cases hq : doiSearch href.data with
        | none => rw [hq] at h; simp at h
        | some q =>
          rw [hq] at h
          simp at h
          subst h
          exact doiSearch_spec _ q.1 q.2 hq

/-- Any `some` result of `extract_doi_from_node` is a `doiSearch` match
(applied either to the link href or to the text), hence spec-shaped. -/
theorem extract_doi_from_node_spec (n : Node) (ft : String) (d : String)
    (h : extract_doi_from_node n ft = some d) : doiSpecMatch d = true := by
  unfold extract_doi_from_node at h
  split at h
  · rename_i m hm
    simp only [Option.some_inj] at h
    subst h
    exact hrefDoi_spec n m hm
  · by_cases hft : ft = ""
    · rw [if_neg (fun hc => hc hft)] at h
      cases hq : doiSearch (getTextSpaceStrip n).data with
      | none => rw [hq] at h; simp at h
      | some q =>
        rw [hq] at h
        simp at h
        subst h
        exact doiSearch_spec _ q.1 q.2 hq
    · rw [if_pos hft] at h
      cases hq : doiSearch ft.data with
      | none => rw [hq] at h; simp at h
      | some q =>
        rw [hq] at h
        simp at h
        subst h
        exact doiSearch_spec _ q.1 q.2 hq

theorem collectLoop_doi (sibs : List Node) :
    ∀ e ∈ collectLoop sibs, ∀ d, e.2 = some d → doiSpecMatch d = true := by
  induction sibs with
  | nil => intro e he; exact absurd he (by simp [collectLoop])
  | cons n rest ih =>
    intro e he d hd
    cases n with
    | text s =>
      rw [show collectLoop (Node.text s :: rest) = collectLoop rest from rfl] at he
      exact ih e he d hd
    | element tag cls attrs ch =>
      rw [show collectLoop (Node.element tag cls attrs ch :: rest) =
          (if tag == "div" &&
              (cls.contains "cita-artigos" || cls.contains "inst_back" ||
               cls.contains "title-wrapper") then []
           else if tag == "script" || tag == "style" then collectLoop rest
           else
             match findElemIn
                 (fun m => match m with
                   | .element t c _ _ => t == "span" && c.contains "transform"
                   | .text _ => false) ch with
             | none => collectLoop rest
             | some span =>
               if extract_entry_text span ≠ "" &&
                   !is_junk_text (extract_entry_text span).data then
                 (extract_entry_text span,
                   extract_doi_from_node span (extract_entry_text span)) ::
                   collectLoop rest
               else collectLoop rest) from rfl] at he
      split at he
      · exact absurd he (by simp)
      · split at he
        · exact ih e he d hd
        · split at he
          · exact ih e he d hd
          · rename_i x span hspan
            split at he
            · rcases List.mem_cons.mp he with h1 | h1
              · subst h1
                exact extract_doi_from_node_spec span _ d hd
              · exact ih e h1 d hd
            · exact ih e he d hd

theorem collect_section_entries_doi (soup : Node) (cls : String) :
    ∀ e ∈ collect_section_entries soup cls, ∀ d, e.2 = some d →
      doiSpecMatch d = true := by
  intro e he d hd
  unfold collect_section_entries at he
  split at he
  · exact absurd he (by simp)
  · exact collectLoop_doi _ e he d hd

/-! ## Membership lemmas for the two pipelines -/

theorem mem_primaryRecords {html : String} {r : Record}
    (h : r ∈ primaryRecords html) :
    ∃ cls ∈ TARGET_CLASSES, ∃ e ∈ collect_section_entries (parseHtml html) cls,
      r = attach_explicit_doi (parse_entry_text e.1.data cls) e.2 := by
  unfold primaryRecords at h
  rw [List.mem_flatMap] at h
  obtain ⟨cls, hcls, hr⟩ := h
  rw [List.mem_map] at hr
  obtain ⟨e, he, hre⟩ := hr
  exact ⟨cls, hcls, e, he, hre.symm⟩

theorem mem_insertByIdx (x y : Nat × String) (l : List (Nat × String)) :
    y ∈ insertByIdx x l ↔ y = x ∨ y ∈ l := by
  induction l with
  | nil => simp [insertByIdx]
  | cons z rest ih =>
    unfold insertByIdx
    split
    · simp
    · simp [ih]
      tauto

theorem mem_sortByIdx (y : Nat × String) (l : List (Nat × String)) :
    y ∈ sortByIdx l ↔ y ∈ l := by
  induction l with
  | nil => simp [sortByIdx]
  | cons x rest ih => simp [sortByIdx, mem_insertByIdx, ih]

theorem occurrences_class {html : List Char} {oc : Nat × String}
    (h : oc ∈ occurrencesOf html) : oc.2 ∈ TARGET_CLASSES := by
  unfold occurrencesOf at h
  rw [mem_sortByIdx, List.mem_filterMap] at h
  obtain ⟨cls, hcls, hoc⟩ := h
  cases hf : findSub (pyLower cls.data) (pyLower html) with
  | none => rw [hf] at hoc; exact absurd hoc (by simp)
  | some idx =>
    rw [hf] at hoc
    simp at hoc
    subst hoc
    simpa using hcls

theorem mem_fallbackBlockRecords {block : List Char} {cls : String} {r : Record}
    (h : r ∈ fallbackBlockRecords block cls) :
    ∃ sp, r = parse_entry_text sp cls := by
  unfold fallbackBlockRecords at h
  rw [List.mem_flatMap] at h
  obtain ⟨p, hp, hr⟩ := h
  split at hr
  · exact absurd hr (by simp)
  · split at hr
    · exact absurd hr (by simp)
    · rw [List.mem_flatMap] at hr
      obtain ⟨sp, hsp, hr2⟩ := hr
      split at hr2
      · rw [List.mem_singleton] at hr2
        exact ⟨sp, hr2⟩
      · exact absurd hr2 (by simp)

theorem mem_fallback {html : String} {r : Record}
    (h : r ∈ extract_with_fallback html) :
    ∃ cls ∈ TARGET_CLASSES, ∃ sp, r = parse_entry_text sp cls := by
  unfold extract_with_fallback at h
  rw [List.mem_flatMap] at h
  obtain ⟨oc, hoc, hr⟩ := h
  obtain ⟨sp, hsp⟩ := mem_fallbackBlockRecords hr
  exact ⟨oc.2, occurrences_class hoc, sp, hsp⟩

theorem mem_extract {html : String} {r : Record} (h : r ∈ extract html) :
    r ∈ primaryRecords html ∨ r ∈ extract_with_fallback html := by
  unfold extract extract_with_bs4 at h
  split at h
  · exact Or.inl h
  · exact Or.inr h

/-! ## Claims -/

/-- C1: for every input string `html` (including the empty string), the core
extraction function `extract html` returns a (possibly empty) sequence of
records and never raises an exception.  In the embedding, `extract` is a
total function into record lists: there always is a result list. -/
theorem extract_total (html : String) : ∃ records : List Record, extract html = records :=
  ⟨extract html, rfl⟩

/-- C2: every record produced by `extract` carries one of the three fixed
category labels in `class`, and its `doi`, when present, matches the spec's
DOI pattern (`10.` + 4-9 digits + `/` + non-excluded characters). -/
theorem extract_record_invariants (html : String) (r : Record)
    (h : r ∈ extract html) :
    r.«class» ∈ TARGET_CLASSES ∧ ∀ d, r.doi = some d → doiSpecMatch d = true := by
  rcases mem_extract h with hp | hf
  · obtain ⟨cls, hcls, e, he, hre⟩ := mem_primaryRecords hp
    subst hre
    constructor
    · rw [attach_explicit_doi_class, parse_entry_text_class]
      exact hcls
    · intro d hd
      rcases attach_explicit_doi_doi _ _ _ hd with hparsed | hexp
      · exact parse_doi_spec _ _ _ hparsed
      · exact collect_section_entries_doi _ _ e he d hexp
  · obtain ⟨cls, hcls, sp, hsp⟩ := mem_fallback hf
    subst hsp
    refine ⟨by rw [parse_entry_text_class]; exact hcls, ?_⟩
    intro d hd
    exact parse_doi_spec _ _ _ hd

/-- Witness for C2: a concrete document whose extraction yields a record, at
which the invariants are instantiated. -/
theorem extract_record_invariants_witness :
    ({ title := "SMITH", authors := "", place := "Paper. Venue", year := "2021",
       doi := some "10.1234/abc",
       «class» := "Artigos completos publicados em periódicos" } : Record).«class» ∈
        TARGET_CLASSES ∧
      ∀ d, ({ title := "SMITH", authors := "", place := "Paper. Venue",
              year := "2021", doi := some "10.1234/abc",
              «class» := "Artigos completos publicados em periódicos" } : Record).doi =
          some d → doiSpecMatch d = true :=
  extract_record_invariants
    "Artigos completos publicados em periódicos <li>SMITH. Paper. Venue, 2021, 10.1234/abc</li>"
    _ (by decide)

/-- C4: the core extraction is deterministic — two runs of `extract` on the
same document string yield identical output sequences. -/
theorem extract_deterministic (html : String) : extract html = extract html := rfl

/-- C6: the fallback tag-stripper pipeline runs exactly when the primary
structured pipeline produced zero records; when the primary pipeline found at
least one record, its result is returned unchanged.  (No exception is
involved: the choice is a case split on the empty result.) -/
theorem fallback_only_on_empty_primary (html : String) :
    (primaryRecords html = [] → extract_with_bs4 html = extract_with_fallback html) ∧
      (primaryRecords html ≠ [] → extract_with_bs4 html = primaryRecords html) := by
  constructor
  · intro hEmpty
    simp [extract_with_bs4, hEmpty]
  · intro hNe
    have hb : (primaryRecords html).isEmpty = false := by
      cases hh : (primaryRecords html).isEmpty
      · rfl
      · exact absurd (List.isEmpty_iff.mp hh) hNe
    simp [extract_with_bs4, hb]

/-- Witness for C6: both branches instantiated on concrete documents (one
with no extractable structure, one with a structured section). -/
theorem fallback_only_on_empty_primary_witness :
    extract_with_bs4 "hello" = extract_with_fallback "hello" ∧
      extract_with_bs4 "<div><div>Artigos completos publicados em periódicos</div><p><span class=\"transform\">SMITH, A. . Title here . Venue, 2020</span></p></div>" =
        primaryRecords "<div><div>Artigos completos publicados em periódicos</div><p><span class=\"transform\">SMITH, A. . Title here . Venue, 2020</span></p></div>" :=
  ⟨(fallback_only_on_empty_primary "hello").1 (by decide),
   (fallback_only_on_empty_primary _).2 (by decide)⟩

theorem group_class (soup : Node) (cls : String) (r : Record)
    (h : r ∈ (collect_section_entries soup cls).map
        (fun e => attach_explicit_doi (parse_entry_text e.1.data cls) e.2)) :
    r.«class» = cls := by
  rw [List.mem_map] at h
  obtain ⟨e, he, hre⟩ := h
  rw [← hre, attach_explicit_doi_class, parse_entry_text_class]

theorem pairwise_flatMap_rank (L : List String) (f : String → List Record)
    (hf : ∀ cls r, r ∈ f cls → r.«class» = cls)
    (hmono : L.Pairwise (fun a b => rank a ≤ rank b)) :
    (L.flatMap f).Pairwise (fun a b => rank a.«class» ≤ rank b.«class») := by
  induction L with
  | nil => simp
  | cons c restL ih =>
    simp only [List.flatMap_cons]
    rw [List.pairwise_append]
    refine ⟨?_, ?_, ?_⟩
    · exact List.pairwise_of_forall_mem_list (fun a ha b hb => by
        rw [hf c a ha, hf c b hb])
    · exact ih (List.pairwise_cons.mp hmono).2
    · intro a ha b hb
      obtain ⟨c', hc', hb'⟩ := List.mem_flatMap.mp hb
      rw [hf c a ha, hf c' b hb']
      exact (List.pairwise_cons.mp hmono).1 c' hc'

/-- C10: the primary structured pipeline emits its records grouped by
category in the fixed `TARGET_CLASSES` declaration order — no record of a
later category ever precedes a record of an earlier one. -/
theorem primary_grouped_by_category (html : String) :
    (primaryRecords html).Pairwise
      (fun a b => rank a.«class» ≤ rank b.«class») := by
  unfold primaryRecords
  apply pairwise_flatMap_rank
  · exact fun cls r h => group_class _ cls r h
  · decide

/-- C5: in the entry parser's year step, when the post-title remainder has
year-pattern matches, the last match is taken (text and start offset), and
the place is the remainder text strictly before that offset, trimmed (when
the later `in:`/empty-retry/`org.crossref` clean-ups do not apply); in
particular for `"São Paulo, 2019, 2020"` the year is `"2020"` (offset 17)
and the place is `"São Paulo, 2019"`. -/
theorem year_last_match_wins :
    (∀ remainder t : List Char, yearFinditer remainder ≠ [] →
       ∃ q : Nat × List Char, (yearFinditer remainder).getLast? = some q ∧
         yearStep remainder t = (q.2, some q.1)) ∧
    (∀ (remainder : List Char) (p : Nat),
       (stripPunct (remainder.take p)).isEmpty = false →
       "in:".data.isPrefixOf (pyLower (stripPunct (remainder.take p))) = false →
       findSub "org.crossref".data (pyLower (stripPunct (remainder.take p))) = none →
       placeStep remainder (some p) = stripPunct (remainder.take p)) ∧
    yearStep "São Paulo, 2019, 2020".data "São Paulo, 2019, 2020".data =
      ("2020".data, some 17) ∧
    placeStep "São Paulo, 2019, 2020".data (some 17) = "São Paulo, 2019".data := by
  refine ⟨?_, ?_, by decide, by decide⟩
  · intro remainder t hne
    cases hq : (yearFinditer remainder).getLast? with
    | none => exact absurd (List.getLast?_eq_none_iff.mp hq) hne
    | some q =>
      refine ⟨q, rfl, ?_⟩
      unfold yearStep
      rw [hq]
  · intro remainder p h1 h2 h3
    unfold placeStep
    have hini : placeInitial remainder (some p) = stripPunct (remainder.take p) := rfl
    rw [hini]
    unfold placeDropIn
    rw [h2]
    simp only [Bool.false_eq_true, if_false]
    unfold placeRetry
    rw [h1]
    simp only [Bool.false_and, Bool.false_eq_true, if_false]
    unfold placeCrossref
    rw [h3]

/-- Witness for C5: the general conjuncts instantiated on concrete inputs. -/
theorem year_last_match_wins_witness :
    (∃ q : Nat × List Char,
       (yearFinditer "Recife, 2018, 2019".data).getLast? = some q ∧
         yearStep "Recife, 2018, 2019".data [] = (q.2, some q.1)) ∧
    placeStep "Recife, 2018, 2019".data (some 14) =
      stripPunct ("Recife, 2018, 2019".data.take 14) :=
  ⟨year_last_match_wins.1 _ _ (by decide),
   year_last_match_wins.2.1 _ 14 (by decide) (by decide) (by decide)⟩

/-- The entry parser's result on the spec's scenario input (shared by the C3
counterexample and the amended C3 theorem). -/
theorem parse_scenario_eval :
    parse_entry_text
        "SILVA, J. . A Study of X . Journal of Y, 2021. 10.1000/xyz123".data
        "Artigos completos publicados em periódicos" =
      { title := "A Study of X", authors := "SILVA, J.", place := "Journal of Y",
        year := "2021", doi := some "10.1000/xyz123",
        «class» := "Artigos completos publicados em periódicos" } := by
  decide

/-- C3 counterexample: on the spec's own entry-parser scenario input, the
code does not return the claimed record — the trim rule strips the trailing
comma from `place`, so `place = "Journal of Y"`, not `"Journal of Y,"`. -/
theorem entry_parser_scenario_counterexample :
    parse_entry_text
        "SILVA, J. . A Study of X . Journal of Y, 2021. 10.1000/xyz123".data
        "Artigos completos publicados em periódicos" ≠
      { title := "A Study of X", authors := "SILVA, J.", place := "Journal of Y,",
        year := "2021", doi := some "10.1000/xyz123",
        «class» := "Artigos completos publicados em periódicos" } := by
  rw [parse_scenario_eval]
  decide

/-- C3 (amended): the entry parser on the scenario input returns the claimed
record except that `place` is `"Journal of Y"` (trailing punctuation
stripped by the `strip(" ,.;")` rule). -/
theorem entry_parser_scenario :
    parse_entry_text
        "SILVA, J. . A Study of X . Journal of Y, 2021. 10.1000/xyz123".data
        "Artigos completos publicados em periódicos" =
      { title := "A Study of X", authors := "SILVA, J.", place := "Journal of Y",
        year := "2021", doi := some "10.1000/xyz123",
        «class» := "Artigos completos publicados em periódicos" } :=
  parse_scenario_eval

/-- C7 counterexample: a 40-character string with exactly 60% alphabetic
characters that contains the denylist phrase `function(` IS classified as
junk — the denylist check precedes the length/ratio checks. -/
theorem junk_sixty_percent_counterexample :
    "function(aaaaaaaaaaaaaaaa;;;;;;;;;;;;;;;".data.length = 40 ∧
      ("function(aaaaaaaaaaaaaaaa;;;;;;;;;;;;;;;".data.filter isLatinLetter).length * 10 =
        6 * "function(aaaaaaaaaaaaaaaa;;;;;;;;;;;;;;;".data.length ∧
      is_junk_text "function(aaaaaaaaaaaaaaaa;;;;;;;;;;;;;;;".data = true := by
  decide

/-- C7 (amended): a 40-character string whose alphabetic ratio is 60% and
which contains none of the junk-keyword phrases is never classified as
junk. -/
theorem junk_sixty_percent (s : List Char) (hlen : s.length = 40)
    (hletters : (s.filter isLatinLetter).length * 10 = 6 * s.length)
    (hkw : ∀ k ∈ junk_keywords, findSub k (pyLower s) = none) :
    is_junk_text s = false := by
  have hne : s ≠ [] := by intro e; rw [e] at hlen; simp at hlen
  have hne' : s.isEmpty = false := by simpa [List.isEmpty_iff] using hne
  have hany : junk_keywords.any (fun k => (findSub k (pyLower s)).isSome) = false := by
    rw [List.any_eq_false]
    intro k hk
    simp [hkw k hk]
  have hlen10 : ¬ s.length < 10 := by omega
  have hmax : max 1 s.length = s.length := by
    rw [hlen]
    decide
  have hratio : ¬ (s.filter isLatinLetter).length * 10 < 3 * (max 1 s.length) := by
    rw [hmax]
    omega
  unfold is_junk_text
  rw [hne', hany]
  simp only [Bool.false_eq_true, if_false]
  rw [if_neg hlen10, if_neg hratio]

/-- Witness for C7: a concrete 40-character, 60%-alphabetic, keyword-free
string, classified as not junk. -/
theorem junk_sixty_percent_witness :
    is_junk_text "abcdefghijklmnopqrstuvwx;;;;;;;;;;;;;;;;".data = false :=
  junk_sixty_percent _ (by decide) (by decide) (by decide)

/-- C8: on raw markup with no class-bearing elements consisting of one
category label followed by `<li>AUTHOR. TITLE. PLACE, 2020</li>` twice, the
fallback pipeline returns exactly two records, both for that category. -/
theorem fallback_two_li_records :
    (extract_with_fallback "Artigos completos publicados em periódicos<li>AUTHOR. TITLE. PLACE, 2020</li><li>AUTHOR. TITLE. PLACE, 2020</li>").length = 2 ∧
      (extract_with_fallback "Artigos completos publicados em periódicos<li>AUTHOR. TITLE. PLACE, 2020</li><li>AUTHOR. TITLE. PLACE, 2020</li>").map
          (fun r => r.«class») =
        ["Artigos completos publicados em periódicos",
         "Artigos completos publicados em periódicos"] := by
  decide

/-- C9: in the record assembly of the structured pipeline, a DOI found by the
entry parser in the entry text is kept even when the collector extracted a
different explicit DOI; the explicit DOI is written only when the parser
found none. -/
theorem explicit_doi_only_when_parser_none (text : List Char) (cls : String)
    (xdoi : Option String) :
    (∀ d, (parse_entry_text text cls).doi = some d →
       (attach_explicit_doi (parse_entry_text text cls) xdoi).doi = some d) ∧
    ((parse_entry_text text cls).doi = none → ∀ e, xdoi = some e → e ≠ "" →
       (attach_explicit_doi (parse_entry_text text cls) xdoi).doi = some e) := by
  constructor
  · intro d hd
    have hne : d ≠ "" := doiSpecMatch_ne_empty d (parse_doi_spec _ _ _ hd)
    simp [attach_explicit_doi, optStrTruthy, hd, hne]
  · intro h0 e he hne
    subst he
    simp [attach_explicit_doi, optStrTruthy, h0, hne]

/-- Witness for C9: a parsed DOI survives a conflicting explicit DOI, and an
explicit DOI fills in when the parser found none. -/
theorem explicit_doi_only_when_parser_none_witness :
    (attach_explicit_doi
        (parse_entry_text "A . B . C, 2020 10.1111/aaa".data "X")
        (some "10.9999/zzz")).doi = some "10.1111/aaa" ∧
      (attach_explicit_doi
          (parse_entry_text "A . B . C, 2020".data "X")
          (some "10.9999/zzz")).doi = some "10.9999/zzz" :=
  ⟨(explicit_doi_only_when_parser_none "A . B . C, 2020 10.1111/aaa".data "X"
      (some "10.9999/zzz")).1 _ (by decide),
   (explicit_doi_only_when_parser_none "A . B . C, 2020".data "X"
      (some "10.9999/zzz")).2 (by decide) _ rfl (by decide)⟩

end Lattes

